import Mathlib

/-!
Shallow embedding of the scraping pipeline of `scraper_final.py`.

Python strings are modelled as `List Char` (`PyStr`), HTTP as a function
from URL to an optional already-parsed payload (`Net`; `none` models a
transport failure or a non-success status, which `raise_for_status` turns
into an exception), and the external `urllib.parse.urljoin` as an abstract
function parameter (`UrlJoin`).  HTML parsing by BeautifulSoup / lxml and
the pdfplumber extractor are external libraries; fetched payloads are
therefore modelled as already-parsed structures (`Content`, `FileData`),
and the library extractors are given their documented meaning on those
structures.  All functions of the repository itself are translated
statement by statement from `scraper_final.py`; source line numbers are
given on each definition.
-/

/-- Python `str`, modelled as a list of characters. -/
abbrev PyStr := List Char

/-- Python `s.split(sep)` for a one-character separator: the pieces of `s`
between occurrences of `sep`, empty pieces included.  Always non-empty. -/
def pySplit (sep : Char) : PyStr → List PyStr
  | [] => [[]]
  | c :: rest =>
    if c = sep then [] :: pySplit sep rest
    else
      match pySplit sep rest with
      | [] => [[c]]
      | p :: ps => (c :: p) :: ps

/-- Python `s.startswith(pre)`. -/
def pyStartsWith (pre s : PyStr) : Bool := decide (pre <+: s)

/-- Python `s.endswith(suf)`. -/
def pyEndsWith (suf s : PyStr) : Bool := decide (suf <:+ s)

/-- A character Python's `str.strip()` removes (the common ASCII whitespace). -/
def pyIsSpace (c : Char) : Bool := c = ' ' || c = '\t' || c = '\n' || c = '\r'

/-- Python `s.strip()`: leading and trailing whitespace removed. -/
def pyStrip (s : PyStr) : PyStr :=
  ((s.dropWhile pyIsSpace).reverse.dropWhile pyIsSpace).reverse

/-- The substring of `s` up to (excluding) the first `sep`, or all of `s`
when `sep` does not occur.  Stated from the spec's words for the
type-resolution algorithm; compared below against the code's
`split(sep)[0]`. -/
def takeUntilSep (sep : Char) : PyStr → PyStr
  | [] => []
  | c :: rest => if c = sep then [] else c :: takeUntilSep sep rest

/-- The substring of `s` after the last `sep`, or all of `s` when `sep`
does not occur.  Stated from the spec's words for the type-resolution
algorithm; compared below against the code's `split(sep)[-1]`. -/
def afterLastSep (sep : Char) : PyStr → PyStr
  | [] => []
  | c :: rest =>
    if sep ∈ rest then afterLastSep sep rest
    else if c = sep then rest else c :: afterLastSep sep rest

/-- "the substring up to (excluding) the first comma" (spec 4.1). -/
def beforeFirstComma (s : PyStr) : PyStr := takeUntilSep ',' s

/-- "the substring after the last period" (spec 4.1). -/
def afterLastPeriod (s : PyStr) : PyStr := afterLastSep '.' s

/- ---------------------------------------------------------------------
   Filename / extension derivation (scraper_final.py lines 117-118 and
   183-184: `filename = url.split('/')[-1]` then
   `attachment_type = filename.split(',')[0].split('.')[-1]`).
   --------------------------------------------------------------------- -/

/-- `url.split('/')[-1]` (lines 117, 183). -/
def hrefFilename (s : PyStr) : PyStr := (pySplit '/' s).getLastD []

/-- `filename.split(',')[0].split('.')[-1]` (lines 118, 184). -/
def fileExt (filename : PyStr) : PyStr :=
  (pySplit '.' ((pySplit ',' filename).headD [])).getLastD []

/-- The extension string the code derives from a raw href or URL:
`'/'`-split, then `fileExt` (lines 117-118, 183-184). -/
def hrefExt (href : PyStr) : PyStr := fileExt (hrefFilename href)

/-- The spec's closed classification of payload types (spec 3, 4.1). -/
inductive TypeTag where
  | text
  | pdf
  | markup
  | archive
  | unknown
deriving DecidableEq

def extTxt : PyStr := "txt".toList
def extPdf : PyStr := "pdf".toList
def extXhtml : PyStr := "xhtml".toList
def extZip : PyStr := "zip".toList
def extXades : PyStr := "xades".toList

/-- The known-extension table of spec 4.1:
txt -> text, pdf -> pdf, xhtml -> markup, zip -> archive, anything else
(including xades) -> unknown. -/
def tagOfExt (e : PyStr) : TypeTag :=
  if e = extTxt then .text
  else if e = extPdf then .pdf
  else if e = extXhtml then .markup
  else if e = extZip then .archive
  else .unknown

/-- Spec 4.1 `resolve(nameLike)`: the TypeTag the code's extension
derivation (lines 117-118 / 183-184) assigns to a name-like string. -/
def resolve (nameLike : PyStr) : TypeTag := tagOfExt (fileExt nameLike)

/- ---------------------------------------------------------------------
   Payloads and the format extractors (lines 42-99).
   --------------------------------------------------------------------- -/

/-- A fetched binary payload, modelled at the granularity the external
parsing libraries expose: the UTF-8 text of a plain-text file, the
per-page text layers pdfplumber recovers (a page with no recoverable
text layer is `none`), the text nodes lxml enumerates in document order,
or the named entries of a zip archive in internal listing order. -/
inductive FileData where
  | txtBytes (s : PyStr)
  | pdfData (pages : List (Option PyStr))
  | xhtmlData (nodes : List PyStr)
  | zipData (entries : List (PyStr × FileData))
  | otherData

/-- `file.read().decode('utf-8')` (line 92) on a plain-text payload. -/
def decode_utf8 : FileData → PyStr
  | .txtBytes s => s
  | _ => []

/-- `get_text_from_pdf` (lines 42-58): concatenation, in page order, of
each page's extracted text; pages without a text layer (`page_text` is
`None`) contribute nothing. -/
def get_text_from_pdf : FileData → PyStr
  | .pdfData pages => (pages.map (fun o => o.getD [])).flatten
  | _ => []

/-- `get_text_from_xhtml` (lines 60-71): all text nodes joined with no
separator, line 71. -/
def get_text_from_xhtml : FileData → PyStr
  | .xhtmlData nodes => nodes.flatten
  | _ => []

def sufTxt : PyStr := ".txt".toList
def sufPdf : PyStr := ".pdf".toList
def sufXhtml : PyStr := ".xhtml".toList
def sufZip : PyStr := ".zip".toList

/-- The text one zip entry contributes (lines 89-98): dispatch on a
suffix test of the entry name — `.txt` decoded as UTF-8, `.pdf` through
the PDF extractor, `.xhtml` through the XHTML extractor, anything else
skipped. -/
def zipEntryText (name : PyStr) (data : FileData) : PyStr :=
  if pyEndsWith sufTxt name then decode_utf8 data
  else if pyEndsWith sufPdf name then get_text_from_pdf data
  else if pyEndsWith sufXhtml name then get_text_from_xhtml data
  else []

/-- The `for file_name in zfile.namelist()` accumulation loop of
`get_text_from_zip` (lines 88-98): `text += ...` per entry, in listing
order. -/
def zipLoop : List (PyStr × FileData) → PyStr
  | [] => []
  | e :: rest => zipEntryText e.1 e.2 ++ zipLoop rest

/-- `get_text_from_zip` (lines 74-99). -/
def get_text_from_zip : FileData → PyStr
  | .zipData entries => zipLoop entries
  | _ => []

/-- Which branch of the zip loop (lines 90-98) fires for an entry name:
the TypeTag the archive extractor effectively assigns.  `.text` for a
`.txt`-suffixed name, `.pdf` for `.pdf`, `.markup` for `.xhtml`,
`.unknown` otherwise (no branch, entry skipped). -/
def zipTagOf (name : PyStr) : TypeTag :=
  if pyEndsWith sufTxt name then .text
  else if pyEndsWith sufPdf name then .pdf
  else if pyEndsWith sufXhtml name then .markup
  else .unknown

/-- An entry name matching one of the three handled suffixes. -/
def zipSupported (name : PyStr) : Bool :=
  pyEndsWith sufTxt name || pyEndsWith sufPdf name || pyEndsWith sufXhtml name

/- ---------------------------------------------------------------------
   Parsed pages and the network.
   --------------------------------------------------------------------- -/

/-- An `<a>` element of a detail-page table, in document order:
its optional `href` attribute, and whether it sits in the
`tr > td > li > a` position the attachment selector (line 172) targets. -/
structure Anchor where
  href : Option PyStr
  inCellListItem : Bool
deriving DecidableEq

/-- One table of a detail page's content region (the tables the selector
of lines 162-163 returns), as the list of its `<a>` descendants in
document order. -/
structure HTable where
  anchors : List Anchor
deriving DecidableEq

/-- A parsed detail page: the text `get_text(strip=True)` yields for the
main content container of lines 157-158 (`none` when the container is
absent), and the tables of lines 162-163. -/
structure DetailPage where
  mainText : Option PyStr
  tables : List HTable

/-- One `<a>` of the listing page's result list (`#search-result > li >
strong > a`, line 33): its text and its `href`. -/
structure ListingAnchor where
  text : PyStr
  href : PyStr

/-- What a successful HTTP GET yields once parsed: a file payload, a
detail page, or a listing page. -/
inductive Content where
  | filePayload (d : FileData)
  | htmlPage (p : DetailPage)
  | listingPage (items : List ListingAnchor)

/-- `response.content` viewed as a file payload (for the attachment
dispatch of lines 120-130); non-file content has no meaningful bytes for
the extractors and is mapped to `otherData`. -/
def fileOf : Content → FileData
  | .filePayload d => d
  | _ => .otherData

/-- BeautifulSoup applied to content, queried with the detail-page
selectors (lines 157-163): anything that is not a detail page matches
neither the main container nor any table. -/
def pageOf : Content → DetailPage
  | .htmlPage p => p
  | _ => ⟨none, []⟩

/-- BeautifulSoup applied to content, queried with the listing selector
(line 33). -/
def listingOf : Content → List ListingAnchor
  | .listingPage items => items
  | _ => []

/-- The network: `some` is a successful (2xx) response with its parsed
payload, `none` a transport failure or non-success status, which
`raise_for_status` turns into an exception. -/
abbrev Net := PyStr → Option Content

/-- The external `urllib.parse.urljoin`, abstracted. -/
abbrev UrlJoin := PyStr → PyStr → PyStr

/-- The exceptions the scraper can raise: a failed fetch
(`raise_for_status`, lines 27, 114, 151); the `AttributeError` of
calling `.startswith` on the `None` that `get('href')` returns for an
anchor without the attribute (lines 176-177); or the `KeyError` of
accessing the `URL` column on a DataFrame that has no columns —
`pd.DataFrame([])`, built from a zero-entry listing (line 39), has none,
so `df['URL']` at line 205 raises. -/
inductive ScrapeError where
  | fetchError (url : PyStr)
  | attributeError
  | keyError
deriving DecidableEq

/- ---------------------------------------------------------------------
   get_text_from_attachment (lines 102-132).
   --------------------------------------------------------------------- -/

/-- The dispatch of `get_text_from_attachment` after the download
(lines 116-130): extension from the URL, then pdf / xhtml / zip
extraction, anything else (including txt) ignored with `text = ''`. -/
def attachmentDispatch (url : PyStr) (d : FileData) : PyStr :=
  let t := hrefExt url
  if t = extPdf then get_text_from_pdf d
  else if t = extXhtml then get_text_from_xhtml d
  else if t = extZip then get_text_from_zip d
  else []

/-- `get_text_from_attachment` (lines 102-132): one `requests.get` on
`url`, `raise_for_status`, then the extension dispatch. -/
def get_text_from_attachment (net : Net) (url : PyStr) : Except ScrapeError PyStr :=
  match net url with
  | none => Except.error (ScrapeError.fetchError url)
  | some c => Except.ok (attachmentDispatch url (fileOf c))

/- ---------------------------------------------------------------------
   scrape_text_from_url (lines 135-191).
   --------------------------------------------------------------------- -/

/-- `base_attachment_url` (line 147). -/
def baseAttachmentUrl : PyStr := "https://infostrefa.com/espi/pl/reports/view/".toList

/-- The literal prefix tested on line 177. -/
def attachmentLit : PyStr := "attachment".toList

/-- Lines 176-180: hrefs starting with `attachment` get the fixed base
prepended; all others are joined against the detail page's URL. -/
def resolveAttachmentUrl (uj : UrlJoin) (url href : PyStr) : PyStr :=
  if pyStartsWith attachmentLit href then baseAttachmentUrl ++ href
  else uj url href

/-- Line 166: a table qualifies when it contains some `<a>` carrying an
`href` attribute (`table.find('a', href=True)`). -/
def tableHasHrefLink (t : HTable) : Bool := t.anchors.any (fun a => a.href.isSome)

/-- `found_tables` (line 166). -/
def foundTables (tables : List HTable) : List HTable := tables.filter tableHasHrefLink

/-- `correct_table.select("tr > td > li > a")` (line 172). -/
def liAnchors (t : HTable) : List Anchor := t.anchors.filter (fun a => a.inCellListItem)

/-- Lines 169-172: the anchors the attachment loop iterates over — the
`tr > td > li > a` anchors of `found_tables[1]` when at least two tables
qualify, none otherwise. -/
def selectedAttachmentAnchors (page : DetailPage) : List Anchor :=
  let ft := foundTables page.tables
  if h : 2 ≤ ft.length then liAnchors (ft.get ⟨1, h⟩) else []

/-- The attachment loop of lines 174-188, instrumented: first component
is the accumulated `attachment_texts` (or the first exception raised),
second the URLs handed to `requests.get` inside
`get_text_from_attachment`, in request order (a URL is recorded even
when its fetch fails: the request was issued).  `href = None` raises
`AttributeError` at `href.startswith` (line 177); an href whose derived
extension is `xades` is skipped without any request (line 187). -/
def attachLoop (uj : UrlJoin) (net : Net) (url : PyStr) :
    List Anchor → Except ScrapeError PyStr × List PyStr
  | [] => (Except.ok [], [])
  | a :: rest =>
    match a.href with
    | none => (Except.error ScrapeError.attributeError, [])
    | some href =>
      let au := resolveAttachmentUrl uj url href
      if hrefExt href = extXades then attachLoop uj net url rest
      else
        match get_text_from_attachment net au with
        | Except.error e => (Except.error e, [au])
        | Except.ok t =>
          match attachLoop uj net url rest with
          | (Except.error e, us) => (Except.error e, au :: us)
          | (Except.ok ts, us) => (Except.ok (t ++ ts), au :: us)

/-- `scrape_text_from_url` (lines 135-191): fetch the page, take the main
container's text (`''` when absent), run the attachment loop over the
selected anchors, and return main text followed by the accumulated
attachment text. -/
def scrape_text_from_url (uj : UrlJoin) (net : Net) (url : PyStr) :
    Except ScrapeError PyStr :=
  match net url with
  | none => Except.error (ScrapeError.fetchError url)
  | some c =>
    let page := pageOf c
    let main_text := page.mainText.getD []
    match (attachLoop uj net url (selectedAttachmentAnchors page)).1 with
    | Except.error e => Except.error e
    | Except.ok ts => Except.ok (main_text ++ ts)

/-- The URLs `requests.get` is called on for attachments while scraping
`url`: the request trace of the attachment loop. -/
def requestedUrls (uj : UrlJoin) (net : Net) (url : PyStr) : List PyStr :=
  match net url with
  | none => []
  | some c => (attachLoop uj net url (selectedAttachmentAnchors (pageOf c))).2

/- ---------------------------------------------------------------------
   scrape_articles (lines 12-39) and the orchestration (lines 194-216).
   --------------------------------------------------------------------- -/

/-- The fixed part of the listing URL (line 23). -/
def listingUrlStem : PyStr :=
  ("https://www.gpw.pl/komunikaty?categoryRaports=EBI,ESPI&" ++
   "typeRaports=RB,P,Q,O,R&searchText=&date=").toList

/-- The listing URL for a date (line 23, the f-string). -/
def listingUrl (date : PyStr) : PyStr := listingUrlStem ++ date

/-- `scrape_articles` (lines 12-39): fetch the listing page, and pair
each result anchor's stripped text with its href joined against the
listing URL.  The returned list is the DataFrame's (Title, URL) rows. -/
def scrape_articles (uj : UrlJoin) (net : Net) (date : PyStr) :
    Except ScrapeError (List (PyStr × PyStr)) :=
  match net (listingUrl date) with
  | none => Except.error (ScrapeError.fetchError (listingUrl date))
  | some c =>
    Except.ok ((listingOf c).map (fun a => (pyStrip a.text, uj (listingUrl date) a.href)))

/-- Python dict assignment `d[k] = v`: update in place when the key
exists (insertion position kept), append otherwise. -/
def pyDictInsert (d : List (PyStr × PyStr)) (k v : PyStr) : List (PyStr × PyStr) :=
  if k ∈ d.map Prod.fst then
    d.map (fun p => if p.1 = k then (k, v) else p)
  else d ++ [(k, v)]

/-- The `for url in df['URL']` loop of `scrape_text_from_urls`
(lines 204-206), accumulating the `results` dict. -/
def urlsLoop (uj : UrlJoin) (net : Net) :
    List PyStr → List (PyStr × PyStr) → Except ScrapeError (List (PyStr × PyStr))
  | [], acc => Except.ok acc
  | u :: rest, acc =>
    match scrape_text_from_url uj net u with
    | Except.error e => Except.error e
    | Except.ok t => urlsLoop uj net rest (pyDictInsert acc u t)

/-- `scrape_text_from_urls` (lines 194-207) over an already-obtained URL
column, followed by the `data = [{"url": url, "content": content} ...]`
flattening of line 216: the emitted corpus as an ordered list of
(url, content) records.  The `df['URL']` column access itself (line 205)
is modelled by `dfColumnURL` below — it can raise, and `runPipeline`
threads it between the DataFrame handoff and this loop. -/
def scrape_text_from_urls (uj : UrlJoin) (net : Net) (urls : List PyStr) :
    Except ScrapeError (List (PyStr × PyStr)) :=
  urlsLoop uj net urls []

/-- The pandas column access `df['URL']` (line 205) on the DataFrame the
listing scan builds (line 39, `pd.DataFrame(results)`): a frame built
from a non-empty record list has Title and URL columns and the access
yields every row's URL in order; a frame built from the empty record
list has no columns at all, and the access raises `KeyError`. -/
def dfColumnURL (df : List (PyStr × PyStr)) : Except ScrapeError (List PyStr) :=
  match df with
  | [] => Except.error ScrapeError.keyError
  | _ => Except.ok (df.map Prod.snd)

/-- The whole run of lines 211-216: listing scan for the date, then the
`df['URL']` column access (which raises `KeyError` for a zero-entry
listing), then text scraping of every listed URL, producing the corpus
records. -/
def runPipeline (uj : UrlJoin) (net : Net) (date : PyStr) :
    Except ScrapeError (List (PyStr × PyStr)) :=
  match scrape_articles uj net date with
  | Except.error e => Except.error e
  | Except.ok df =>
    match dfColumnURL df with
    | Except.error e => Except.error e
    | Except.ok urls => scrape_text_from_urls uj net urls

/-- First-occurrence deduplication relative to an already-seen set:
the key order a Python dict ends up with after inserting `urls` in
order. -/
def firstOcc (seen : List PyStr) : List PyStr → List PyStr
  | [] => []
  | u :: rest => if u ∈ seen then firstOcc seen rest else u :: firstOcc (u :: seen) rest

/- ---------------------------------------------------------------------
   Concrete scenario data for witnesses and counterexamples.
   --------------------------------------------------------------------- -/

/-- A trivial join for concrete scenarios: the relative href is already
the fetchable URL. -/
def ujId : UrlJoin := fun _ rel => rel

/-- A network on which every fetch fails. -/
def netNone : Net := fun _ => none

def urlD : PyStr := "http://d".toList
def dateD : PyStr := "07-05-2024".toList
def hrefDummy : PyStr := "nav.html".toList
def hrefReportTxt : PyStr := "report.txt".toList
def hrefDocx : PyStr := "file.docx".toList
def hrefAtt : PyStr := "attachment/foo.pdf".toList
def hrefDocs : PyStr := "/docs/foo.pdf".toList
def hrefXades : PyStr := "sig.xades".toList
def qMain : PyStr := "Q1 results".toList
def revText : PyStr := "Revenue up 5%".toList
def qCombined : PyStr := "Q1 resultsRevenue up 5%".toList
def xText : PyStr := "x".toList
def helloTxt : PyStr := "hello".toList
def nameATxt : PyStr := "a.txt".toList
def nameBPdf : PyStr := "b.pdf".toList
def nameCXades : PyStr := "c.xades".toList
def nameInnerZip : PyStr := "inner.zip".toList
def nameCommaTxt : PyStr := "a,b.txt".toList
def nameReportV2 : PyStr := "report,v2.pdf".toList
def nameReportPdfV2 : PyStr := "report.pdf,v2".toList
def nameSigXades : PyStr := "sig.xades".toList

/-- A navigation table: qualifies (anchor with href) but has no
`tr > td > li > a` anchors. -/
def tNav : HTable := ⟨[⟨some hrefDummy, false⟩]⟩

/-- The attachment table of the end-to-end scenario: one `report.txt`
link in cell-list position. -/
def tReport : HTable := ⟨[⟨some hrefReportTxt, true⟩]⟩

/-- The detail page of the end-to-end scenario of spec 8: main text
`Q1 results`, one navigation table, one attachment table with
`report.txt`. -/
def q1Page : DetailPage := ⟨some qMain, [tNav, tReport]⟩

/-- Network for the end-to-end scenario: the detail page at `urlD`, the
attachment bytes at `report.txt`. -/
def net1 : Net := fun u =>
  if u = urlD then some (Content.htmlPage q1Page)
  else if u = hrefReportTxt then some (Content.filePayload (FileData.txtBytes revText))
  else none

/-- An attachment table whose single link has an unrecognized extension. -/
def tDocx : HTable := ⟨[⟨some hrefDocx, true⟩]⟩

def pageDocx : DetailPage := ⟨some qMain, [tNav, tDocx]⟩

/-- Network for the unknown-extension scenario: only the detail page
resolves; the attachment fetch itself fails (the trace still records the
issued request). -/
def netDocx : Net := fun u => if u = urlD then some (Content.htmlPage pageDocx) else none

/-- A detail page with a single qualifying table: below the two-table
threshold. -/
def pageOne : DetailPage := ⟨some qMain, [tNav]⟩

def netOne : Net := fun u => if u = urlD then some (Content.htmlPage pageOne) else none

/-- Network with one detail page carrying no tables at all. -/
def netU : Net := fun u => if u = urlD then some (Content.htmlPage ⟨some xText, []⟩) else none

/-- Network whose listing page for `dateD` has zero matching entries. -/
def netL : Net := fun u => if u = listingUrl dateD then some (Content.listingPage []) else none

def hrefA : PyStr := "a1.pdf".toList
def hrefB : PyStr := "b2.pdf".toList
def hrefC : PyStr := "c3.pdf".toList

/-- Three qualifying tables for the synthetic three-table page of
spec 8: stray links first and third, the true attachment list second. -/
def tA : HTable := ⟨[⟨some hrefA, true⟩]⟩

def tB : HTable := ⟨[⟨some hrefB, true⟩]⟩

def tC : HTable := ⟨[⟨some hrefC, true⟩]⟩

/- ---------------------------------------------------------------------
   Helper lemmas.
   --------------------------------------------------------------------- -/

theorem pySplit_ne_nil (sep : Char) (s : PyStr) : pySplit sep s ≠ [] := by
  cases s with
  | nil => simp [pySplit]
  | cons c rest =>
    simp only [pySplit]
    by_cases h : c = sep
    · simp [h]
    · simp only [if_neg h]
      cases hr : pySplit sep rest <;> simp

theorem pySplit_headD (sep : Char) (s : PyStr) :
    (pySplit sep s).headD [] = takeUntilSep sep s := by
  induction s with
  | nil => rfl
  | cons c rest ih =>
    simp only [pySplit, takeUntilSep]
    by_cases h : c = sep
    · simp [h]
    · simp only [if_neg h]
      cases hr : pySplit sep rest with
      | nil => exact absurd hr (pySplit_ne_nil sep rest)
      | cons p ps =>
        have hp : p = takeUntilSep sep rest := by
          rw [← ih, hr]; rfl
        simp [hp]

theorem pySplit_of_not_mem {sep : Char} {s : PyStr} (h : sep ∉ s) :
    pySplit sep s = [s] := by
  induction s with
  | nil => rfl
  | cons c rest ih =>
    have h1 : sep ≠ c ∧ sep ∉ rest := by
      constructor
      · intro e; exact h (e ▸ List.mem_cons_self c rest)
      · intro m; exact h (List.mem_cons_of_mem c m)
    simp only [pySplit, ih h1.2]
    rw [if_neg (fun e => h1.1 e.symm)]

theorem pySplit_length_of_mem {sep : Char} {s : PyStr} (h : sep ∈ s) :
    2 ≤ (pySplit sep s).length := by
  induction s with
  | nil => cases h
  | cons c rest ih =>
    by_cases hc : c = sep
    · simp only [pySplit, if_pos hc, List.length_cons]
      have := List.length_pos.mpr (pySplit_ne_nil sep rest)
      omega
    · have hm : sep ∈ rest := by
        rcases List.mem_cons.mp h with h1 | h1
        · exact absurd h1.symm hc
        · exact h1
      simp only [pySplit, if_neg hc]
      cases hr : pySplit sep rest with
      | nil => exact absurd hr (pySplit_ne_nil sep rest)
      | cons p ps =>
        have h2 := ih hm
        rw [hr] at h2
        simpa using h2

theorem afterLastSep_of_not_mem {sep : Char} {s : PyStr} (h : sep ∉ s) :
    afterLastSep sep s = s := by
  induction s with
  | nil => rfl
  | cons c rest ih =>
    have h1 : sep ≠ c ∧ sep ∉ rest := by
      constructor
      · intro e; exact h (e ▸ List.mem_cons_self c rest)
      · intro m; exact h (List.mem_cons_of_mem c m)
    have hcne : ¬c = sep := fun e => h1.1 e.symm
    simp only [afterLastSep, if_neg h1.2, if_neg hcne, ih h1.2]

theorem getLastD_cons_ne_nil {α : Type} (x : α) {l : List α} (h : l ≠ []) (d : α) :
    (x :: l).getLastD d = l.getLastD d := by
  cases l with
  | nil => exact absurd rfl h
  | cons b t => rfl

theorem pySplit_getLastD (sep : Char) (s : PyStr) :
    (pySplit sep s).getLastD [] = afterLastSep sep s := by
  induction s with
  | nil => rfl
  | cons c rest ih =>
    by_cases hc : c = sep
    · subst hc
      simp only [pySplit, afterLastSep, eq_self_iff_true, if_true]
      by_cases hm : c ∈ rest
      · rw [if_pos hm, getLastD_cons_ne_nil _ (pySplit_ne_nil c rest)]
        exact ih
      · rw [if_neg hm, getLastD_cons_ne_nil _ (pySplit_ne_nil c rest),
          pySplit_of_not_mem hm]
        rfl
    · simp only [pySplit, if_neg hc, afterLastSep]
      by_cases hm : sep ∈ rest
      · rw [if_pos hm]
        cases hr : pySplit sep rest with
        | nil => exact absurd hr (pySplit_ne_nil sep rest)
        | cons p ps =>
          have hps : ps ≠ [] := by
            have h2 := pySplit_length_of_mem hm
            rw [hr] at h2
            simp only [List.length_cons] at h2
            intro e
            rw [e] at h2
            simp at h2
          rw [getLastD_cons_ne_nil _ hps]
          have h3 : (p :: ps).getLastD [] = afterLastSep sep rest := by
            rw [← hr]; exact ih
          rw [getLastD_cons_ne_nil _ hps] at h3
          exact h3
      · rw [if_neg hm, pySplit_of_not_mem hm, afterLastSep_of_not_mem hm]
        rfl

theorem fileExt_eq_spec (s : PyStr) :
    fileExt s = afterLastPeriod (beforeFirstComma s) := by
  unfold fileExt afterLastPeriod beforeFirstComma
  rw [pySplit_headD, pySplit_getLastD]

theorem zipEntryText_unsupported {name : PyStr} (h : zipSupported name = false)
    (data : FileData) : zipEntryText name data = [] := by
  unfold zipSupported at h
  simp only [Bool.or_eq_false_iff] at h
  simp [zipEntryText, h.1.1, h.1.2, h.2]

theorem zipLoop_eq_filter (entries : List (PyStr × FileData)) :
    zipLoop entries =
      ((entries.filter fun e => zipSupported e.1).map fun e => zipEntryText e.1 e.2).flatten := by
  induction entries with
  | nil => rfl
  | cons e rest ih =>
    by_cases h : zipSupported e.1 = true
    · simp [zipLoop, List.filter_cons, h, ih]
    · have hf : zipSupported e.1 = false := by
        cases he : zipSupported e.1
        · rfl
        · exact absurd he h
      simp [zipLoop, List.filter_cons, hf, ih, zipEntryText_unsupported hf]

theorem zipLoop_append (l1 l2 : List (PyStr × FileData)) :
    zipLoop (l1 ++ l2) = zipLoop l1 ++ zipLoop l2 := by
  induction l1 with
  | nil => rfl
  | cons e rest ih => simp [zipLoop, ih]

theorem zipEntryText_of_zip_suffix {name : PyStr} (data : FileData)
    (h : pyEndsWith sufZip name = true) : zipEntryText name data = [] := by
  have hz : sufZip <:+ name := of_decide_eq_true h
  have ht : pyEndsWith sufTxt name = false := by
    apply decide_eq_false
    intro hs
    rcases List.suffix_or_suffix_of_suffix hz hs with h1 | h1
    · exact absurd h1 (by decide)
    · exact absurd h1 (by decide)
  have hp : pyEndsWith sufPdf name = false := by
    apply decide_eq_false
    intro hs
    rcases List.suffix_or_suffix_of_suffix hz hs with h1 | h1
    · exact absurd h1 (by decide)
    · exact absurd h1 (by decide)
  have hx : pyEndsWith sufXhtml name = false := by
    apply decide_eq_false
    intro hs
    rcases List.suffix_or_suffix_of_suffix hz hs with h1 | h1
    · exact absurd h1 (by decide)
    · exact absurd h1 (by decide)
  simp [zipEntryText, ht, hp, hx]

theorem pyDictInsert_map (L : List PyStr) (u : PyStr) (f : PyStr → PyStr) :
    pyDictInsert (L.map fun x => (x, f x)) u (f u) =
      (if u ∈ L then L else L ++ [u]).map fun x => (x, f x) := by
  unfold pyDictInsert
  have hk : ((L.map fun x => (x, f x)).map Prod.fst) = L := by
    rw [List.map_map]
    exact List.map_id L
  rw [hk]
  by_cases h : u ∈ L
  · rw [if_pos h, if_pos h, List.map_map]
    apply List.map_congr_left
    intro x _
    by_cases hx : x = u
    · subst hx; simp
    · simp [Function.comp, hx]
  · rw [if_neg h, if_neg h, List.map_append]
    rfl

theorem firstOcc_congr {s1 s2 : List PyStr} (h : ∀ x, x ∈ s1 ↔ x ∈ s2) :
    ∀ l : List PyStr, firstOcc s1 l = firstOcc s2 l := by
  intro l
  induction l generalizing s1 s2 with
  | nil => rfl
  | cons u rest ih =>
    simp only [firstOcc]
    by_cases hm : u ∈ s1
    · rw [if_pos hm, if_pos ((h u).mp hm)]
      exact ih h
    · rw [if_neg hm, if_neg (fun m => hm ((h u).mpr m))]
      have h2 : ∀ x, x ∈ u :: s1 ↔ x ∈ u :: s2 := by
        intro x
        simp [List.mem_cons, h x]
      rw [ih h2]

theorem urlsLoop_map (uj : UrlJoin) (net : Net) (f : PyStr → PyStr) :
    ∀ (urls L : List PyStr),
      (∀ u ∈ urls, scrape_text_from_url uj net u = Except.ok (f u)) →
      urlsLoop uj net urls (L.map fun u => (u, f u)) =
        Except.ok ((L ++ firstOcc L urls).map fun u => (u, f u)) := by
  intro urls
  induction urls with
  | nil =>
    intro L _
    simp [urlsLoop, firstOcc]
  | cons u rest ih =>
    intro L H
    have hu := H u (List.mem_cons_self u rest)
    have Hrest : ∀ v ∈ rest, scrape_text_from_url uj net v = Except.ok (f v) :=
      fun v hv => H v (List.mem_cons_of_mem u hv)
    simp only [urlsLoop, hu]
    rw [pyDictInsert_map L u f]
    by_cases hm : u ∈ L
    · rw [if_pos hm, ih L Hrest]
      simp only [firstOcc, if_pos hm]
    · rw [if_neg hm, ih (L ++ [u]) Hrest]
      simp only [firstOcc, if_neg hm]
      have hcg : firstOcc (L ++ [u]) rest = firstOcc (u :: L) rest := by
        apply firstOcc_congr
        intro x
        simp [List.mem_append, List.mem_cons, or_comm]
      rw [hcg]
      congr 1
      simp

/- ---------------------------------------------------------------------
   Claim theorems.
   --------------------------------------------------------------------- -/

/-- C2, counterexample: the claim's instance `resolve("report,v2.pdf") = pdf`
is false on the code.  `"report,v2.pdf".split(',')[0]` is `"report"`, whose
after-last-period segment is `"report"`, which is not a known extension, so
the derived tag is `unknown`, not `pdf`. -/
theorem c2_counterexample :
    resolve nameReportV2 = TypeTag.unknown ∧ TypeTag.unknown ≠ TypeTag.pdf := by
  constructor
  · decide
  · decide

/-- C2, amended: the type-tag derivation is a pure function of the
name-like string and follows exactly the claimed algorithm — substring up
to the first comma, then substring after the last period, compared against
the known set (no-period inputs keep the whole comma-stripped string as
their candidate extension).  But the comma strip cuts a trailing
`.pdf` away: `resolve("report,v2.pdf")` is `unknown`, while a name with
the comma after the extension, `"report.pdf,v2"`, yields `pdf`;
`resolve("sig.xades")` is `unknown`. -/
theorem c2_resolve_algorithm :
    (∀ s : PyStr, resolve s = tagOfExt (afterLastPeriod (beforeFirstComma s))) ∧
    resolve nameReportPdfV2 = TypeTag.pdf ∧
    resolve nameReportV2 = TypeTag.unknown ∧
    resolve nameSigXades = TypeTag.unknown := by
  refine ⟨fun s => ?_, by decide, by decide, by decide⟩
  unfold resolve
  rw [fileExt_eq_spec]

/-- C7: archive extraction is order-preserving and skips unsupported
entries silently: for every entry list, the extracted text is the
concatenation, in listing order, of the supported entries' texts; in
particular an archive listing `[a.txt, b.pdf, c.xades]` yields the text of
`a.txt` followed by the text of `b.pdf`, with `c.xades` contributing
nothing. -/
theorem c7_zip_order_preserving :
    (∀ entries : List (PyStr × FileData),
        get_text_from_zip (FileData.zipData entries) =
          ((entries.filter fun e => zipSupported e.1).map
            fun e => zipEntryText e.1 e.2).flatten) ∧
    (∀ (ta : PyStr) (pb : List (Option PyStr)) (dc : FileData),
        get_text_from_zip (FileData.zipData
            [(nameATxt, FileData.txtBytes ta), (nameBPdf, FileData.pdfData pb),
             (nameCXades, dc)]) =
          ta ++ get_text_from_pdf (FileData.pdfData pb)) := by
  constructor
  · intro entries
    exact zipLoop_eq_filter entries
  · intro ta pb dc
    show zipLoop _ = _
    have h1 : pyEndsWith sufTxt nameATxt = true := by decide
    have h2 : pyEndsWith sufTxt nameBPdf = false := by decide
    have h3 : pyEndsWith sufPdf nameBPdf = true := by decide
    have h4 : pyEndsWith sufTxt nameCXades = false := by decide
    have h5 : pyEndsWith sufPdf nameCXades = false := by decide
    have h6 : pyEndsWith sufXhtml nameCXades = false := by decide
    simp [zipLoop, zipEntryText, h1, h2, h3, h4, h5, h6, decode_utf8]

/-- C8, counterexample: inside an archive the extractor is selected by a
suffix test of the entry name (`endswith('.txt')`, line 90), not by the
comma-stripping derivation used for top-level attachments (lines 117-118).
The two derivations disagree on the equal string `"a,b.txt"`: the zip
branch treats it as text and extracts its contents, while the top-level
derivation yields `unknown` (`"a,b.txt".split(',')[0]` is `"a"`). -/
theorem c8_counterexample :
    zipTagOf nameCommaTxt = TypeTag.text ∧
    resolve nameCommaTxt = TypeTag.unknown ∧
    TypeTag.text ≠ TypeTag.unknown ∧
    get_text_from_zip
        (FileData.zipData [(nameCommaTxt, FileData.txtBytes helloTxt)]) = helloTxt := by
  refine ⟨by decide, by decide, by decide, ?_⟩
  rfl

/-- C8, amended: the extractor for a contained entry is selected from the
entry name alone, by suffix match (`.txt` / `.pdf` / `.xhtml`, else
skipped), independent of the surrounding entries and of the outer
archive's own tag — but this suffix dispatch is not the comma-stripping
derivation used for top-level attachments (they disagree, e.g., on names
containing a comma). -/
theorem c8_zip_entry_dispatch :
    (∀ (name : PyStr) (data : FileData) (pre post : List (PyStr × FileData)),
        get_text_from_zip (FileData.zipData (pre ++ (name, data) :: post)) =
          zipLoop pre ++ zipEntryText name data ++ zipLoop post) ∧
    (∀ (name : PyStr) (data : FileData),
        zipEntryText name data =
          match zipTagOf name with
          | TypeTag.text => decode_utf8 data
          | TypeTag.pdf => get_text_from_pdf data
          | TypeTag.markup => get_text_from_xhtml data
          | _ => []) := by
  constructor
  · intro name data pre post
    show zipLoop _ = _
    rw [zipLoop_append]
    simp [zipLoop, List.append_assoc]
  · intro name data
    unfold zipEntryText zipTagOf
    by_cases ht : pyEndsWith sufTxt name = true
    · simp [ht]
    · simp only [Bool.not_eq_true] at ht
      by_cases hp : pyEndsWith sufPdf name = true
      · simp [ht, hp]
      · simp only [Bool.not_eq_true] at hp
        by_cases hx : pyEndsWith sufXhtml name = true
        · simp [ht, hp, hx]
        · simp only [Bool.not_eq_true] at hx
          simp [ht, hp, hx]

/-- C9, counterexample: the archive extractor does not recurse into nested
archives — the zip loop has no `.zip` branch (lines 90-98), so an inner
archive entry is skipped wholesale.  An outer archive containing only
`inner.zip` (which itself contains `a.txt` with text `hello`) extracts to
the empty string, although extracting `inner.zip` directly would yield
`hello`. -/
theorem c9_counterexample :
    get_text_from_zip (FileData.zipData
        [(nameInnerZip, FileData.zipData [(nameATxt, FileData.txtBytes helloTxt)])]) = [] ∧
    get_text_from_zip
        (FileData.zipData [(nameATxt, FileData.txtBytes helloTxt)]) = helloTxt ∧
    helloTxt ≠ [] := by
  refine ⟨rfl, rfl, by decide⟩

/-- C9, amended: contained entries are dispatched by name suffix to the
text, PDF and XHTML extractors only; an entry whose name ends in `.zip`
matches no branch and contributes nothing — nested archives are never
recursed into, and a supported file inside an inner archive never reaches
the outer result. -/
theorem c9_no_archive_recursion :
    (∀ (name : PyStr) (data : FileData), pyEndsWith sufZip name = true →
        zipEntryText name data = []) ∧
    (∀ inner : List (PyStr × FileData),
        get_text_from_zip
          (FileData.zipData [(nameInnerZip, FileData.zipData inner)]) = []) := by
  constructor
  · intro name data h
    exact zipEntryText_of_zip_suffix data h
  · intro inner
    rfl

/-- C9 witness: the amended theorem applied at the concrete entry name
`inner.zip` with a text payload. -/
theorem c9_witness :
    zipEntryText nameInnerZip (FileData.txtBytes helloTxt) = [] ∧
    get_text_from_zip
      (FileData.zipData [(nameInnerZip, FileData.zipData [])]) = [] :=
  ⟨c9_no_archive_recursion.1 nameInnerZip (FileData.txtBytes helloTxt) (by decide),
   c9_no_archive_recursion.2 []⟩

/-- C1, counterexample: the end-to-end scenario of spec 8 — detail page
with main text `Q1 results` and one resolvable attachment `report.txt`
containing `Revenue up 5%` — yields `Q1 results`, not
`Q1 resultsRevenue up 5%`: the attachment dispatch of
`get_text_from_attachment` (lines 121-130) has no `txt` branch, so the
text file's content is dropped. -/
theorem c1_counterexample :
    scrape_text_from_url ujId net1 urlD = Except.ok qMain ∧
    (Except.ok qMain : Except ScrapeError PyStr) ≠ Except.ok qCombined := by
  constructor
  · rfl
  · intro h
    injection h with h2
    exact absurd h2 (by decide)

/-- C1, amended: the `txt` key is not dispatched at the attachment
boundary (only `pdf`, `xhtml`, `zip` are); a `.txt` attachment is fetched
but contributes empty text, so the scenario's combined extraction yields
exactly the main text `Q1 results`.  Stated for every join function whose
result URL keeps the `.txt` extension and every network resolving the
page and the attachment. -/
theorem c1_txt_not_dispatched (uj : UrlJoin) (net : Net) (url : PyStr) (c : Content)
    (h1 : net url = some (Content.htmlPage q1Page))
    (h2 : hrefExt (uj url hrefReportTxt) = extTxt)
    (h3 : net (uj url hrefReportTxt) = some c) :
    scrape_text_from_url uj net url = Except.ok qMain := by
  unfold scrape_text_from_url
  rw [h1]
  dsimp only
  have hsel : selectedAttachmentAnchors (pageOf (Content.htmlPage q1Page)) =
      [⟨some hrefReportTxt, true⟩] := by decide
  rw [hsel]
  have hres : resolveAttachmentUrl uj url hrefReportTxt = uj url hrefReportTxt := by
    unfold resolveAttachmentUrl
    rw [if_neg (by decide : ¬ pyStartsWith attachmentLit hrefReportTxt = true)]
  have hdisp : attachmentDispatch (uj url hrefReportTxt) (fileOf c) = [] := by
    unfold attachmentDispatch
    rw [h2]
    rfl
  simp only [attachLoop, hres, get_text_from_attachment, h3, hdisp]
  rw [if_neg (by decide : ¬ hrefExt hrefReportTxt = extXades)]
  simp [qMain]
  decide

/-- C1 witness: the amended theorem applied to the concrete scenario
network. -/
theorem c1_witness : scrape_text_from_url ujId net1 urlD = Except.ok qMain :=
  c1_txt_not_dispatched ujId net1 urlD
    (Content.filePayload (FileData.txtBytes revText)) rfl (by decide) rfl

/-- C3: attachment resolution selects exactly the second qualifying
table.  With fewer than two tables containing an href-bearing hyperlink,
no anchors are selected and scraping returns just the main text; with two
or more, exactly the `tr > td > li > a` anchors of the second qualifying
table are selected, in document order — on a page with three qualifying
tables, exactly the second table's list-item links and none from the
first or third. -/
theorem c3_second_table_selection :
    (∀ page : DetailPage, (foundTables page.tables).length < 2 →
        selectedAttachmentAnchors page = []) ∧
    (∀ page : DetailPage, ∀ h : 2 ≤ (foundTables page.tables).length,
        selectedAttachmentAnchors page = liAnchors ((foundTables page.tables).get ⟨1, h⟩)) ∧
    (∀ (mt : Option PyStr) (t1 t2 t3 : HTable),
        tableHasHrefLink t1 = true → tableHasHrefLink t2 = true →
        tableHasHrefLink t3 = true →
        selectedAttachmentAnchors ⟨mt, [t1, t2, t3]⟩ = liAnchors t2) ∧
    (∀ (uj : UrlJoin) (net : Net) (url : PyStr) (page : DetailPage),
        net url = some (Content.htmlPage page) →
        (foundTables page.tables).length < 2 →
        scrape_text_from_url uj net url = Except.ok (page.mainText.getD [])) := by
  have hlt : ∀ page : DetailPage, (foundTables page.tables).length < 2 →
      selectedAttachmentAnchors page = [] := by
    intro page h
    unfold selectedAttachmentAnchors
    rw [dif_neg (by omega)]
  have hge : ∀ page : DetailPage, ∀ h : 2 ≤ (foundTables page.tables).length,
      selectedAttachmentAnchors page = liAnchors ((foundTables page.tables).get ⟨1, h⟩) := by
    intro page h
    unfold selectedAttachmentAnchors
    rw [dif_pos h]
  refine ⟨hlt, hge, ?_, ?_⟩
  · intro mt t1 t2 t3 h1 h2 h3
    have hf : foundTables [t1, t2, t3] = [t1, t2, t3] := by
      simp [foundTables, List.filter_cons, h1, h2, h3]
    have hle : 2 ≤ (foundTables ([t1, t2, t3] : List HTable)).length := by
      rw [hf]
      simp
    have hget : (foundTables [t1, t2, t3]).get ⟨1, hle⟩ = t2 := by
      have aux : ∀ (l : List HTable) (hl : 2 ≤ l.length), l = [t1, t2, t3] →
          l.get ⟨1, hl⟩ = t2 := by
        intro l hl he
        subst he
        rfl
      exact aux _ hle hf
    rw [hge ⟨mt, [t1, t2, t3]⟩ hle, hget]
  · intro uj net url page h1 h2
    unfold scrape_text_from_url
    rw [h1]
    dsimp only
    rw [show pageOf (Content.htmlPage page) = page from rfl, hlt page h2]
    simp [attachLoop]

/-- C3 witness: the selection theorem applied at a one-table page (empty
selection and main-text-only scraping) and at a concrete three-table
page (exactly the second table's list-item links). -/
theorem c3_witness :
    selectedAttachmentAnchors pageOne = [] ∧
    selectedAttachmentAnchors ⟨some qMain, [tA, tB, tC]⟩ = liAnchors tB ∧
    scrape_text_from_url ujId netOne urlD = Except.ok (pageOne.mainText.getD []) :=
  ⟨c3_second_table_selection.1 pageOne (by decide),
   c3_second_table_selection.2.2.1 (some qMain) tA tB tC (by decide) (by decide) (by decide),
   c3_second_table_selection.2.2.2 ujId netOne urlD pageOne rfl (by decide)⟩

/-- C4: for every attachment hyperlink, an href beginning with the
literal `attachment` resolves to the fixed external base concatenated
with the raw href, and any other href resolves through the join against
the detail page's own URL; the attachment loop requests exactly that
resolved URL for a non-xades link. -/
theorem c4_attachment_url_resolution :
    (∀ (uj : UrlJoin) (url href : PyStr), pyStartsWith attachmentLit href = true →
        resolveAttachmentUrl uj url href = baseAttachmentUrl ++ href) ∧
    (∀ (uj : UrlJoin) (url href : PyStr), pyStartsWith attachmentLit href = false →
        resolveAttachmentUrl uj url href = uj url href) ∧
    (∀ (uj : UrlJoin) (net : Net) (url href : PyStr) (b : Bool),
        hrefExt href ≠ extXades →
        (attachLoop uj net url [⟨some href, b⟩]).2 = [resolveAttachmentUrl uj url href]) := by
  refine ⟨?_, ?_, ?_⟩
  · intro uj url href h
    unfold resolveAttachmentUrl
    rw [if_pos h]
  · intro uj url href h
    unfold resolveAttachmentUrl
    rw [if_neg (by simp [h])]
  · intro uj net url href b h
    simp only [attachLoop]
    rw [if_neg h]
    cases hg : get_text_from_attachment net (resolveAttachmentUrl uj url href) with
    | error e => rfl
    | ok t => rfl

/-- C4 witness: both resolution branches and the request trace at
concrete hrefs — `attachment/foo.pdf` gets the fixed base prepended,
`/docs/foo.pdf` goes through the join. -/
theorem c4_witness :
    resolveAttachmentUrl ujId urlD hrefAtt = baseAttachmentUrl ++ hrefAtt ∧
    resolveAttachmentUrl ujId urlD hrefDocs = ujId urlD hrefDocs ∧
    (attachLoop ujId netNone urlD [⟨some hrefDocs, true⟩]).2 =
      [resolveAttachmentUrl ujId urlD hrefDocs] :=
  ⟨c4_attachment_url_resolution.1 ujId urlD hrefAtt (by decide),
   c4_attachment_url_resolution.2.1 ujId urlD hrefDocs (by decide),
   c4_attachment_url_resolution.2.2 ujId netNone urlD hrefDocs true (by decide)⟩

/-- C5, what the code does at the failing input: for every date whose
listing page matches zero entries, the pipeline does not yield an empty
corpus — `scrape_articles` hands over `pd.DataFrame([])`, which has no
`URL` column, so the column access of line 205 raises `KeyError` and the
run aborts.  The claim (and spec 8) require `ok []`; the code's
behaviour contradicts it, a defect in the code. -/
theorem c5_keyerror_on_empty_listing (uj : UrlJoin) (net : Net) (date : PyStr)
    (h : net (listingUrl date) = some (Content.listingPage [])) :
    runPipeline uj net date = Except.error ScrapeError.keyError := by
  unfold runPipeline scrape_articles
  rw [h]
  rfl

/-- C5 witness: the empty-listing run at the concrete date and network
ends in `KeyError`. -/
theorem c5_keyerror_witness :
    runPipeline ujId netL dateD = Except.error ScrapeError.keyError :=
  c5_keyerror_on_empty_listing ujId netL dateD rfl

/-- C6, counterexample: the claim that no HTTP request is issued for any
attachment with a tag outside the supported set is false — the loop's
filter (line 187) excludes only `xades`.  A link `file.docx`, whose
derived tag is `unknown`, is fetched: it appears in the request trace of
the scrape. -/
theorem c6_counterexample :
    resolve hrefDocx = TypeTag.unknown ∧
    requestedUrls ujId netDocx urlD = [hrefDocx] ∧
    ([hrefDocx] : List PyStr) ≠ [] := by
  refine ⟨by decide, rfl, by decide⟩

/-- C6, amended: only hyperlinks whose derived extension is `xades` are
dropped without a fetch; every URL the attachment loop requests comes
from a non-xades href (resolved by the URL rule of lines 176-180), and a
xades link is skipped entirely — no request, no text. -/
theorem c6_only_xades_dropped :
    (∀ (uj : UrlJoin) (net : Net) (url : PyStr) (links : List Anchor) (u : PyStr),
        u ∈ (attachLoop uj net url links).2 →
        ∃ a ∈ links, ∃ h, a.href = some h ∧ hrefExt h ≠ extXades ∧
          u = resolveAttachmentUrl uj url h) ∧
    (∀ (uj : UrlJoin) (net : Net) (url href : PyStr) (b : Bool) (rest : List Anchor),
        hrefExt href = extXades →
        attachLoop uj net url (⟨some href, b⟩ :: rest) = attachLoop uj net url rest) := by
  constructor
  · intro uj net url links
    induction links with
    | nil =>
      intro u hu
      simp [attachLoop] at hu
    | cons a rest ih =>
      intro u hu
      match ha : a.href with
      | none =>
        rw [show a = ⟨a.href, a.inCellListItem⟩ from rfl, ha] at hu
        simp [attachLoop] at hu
      | some href =>
        rw [show a = ⟨a.href, a.inCellListItem⟩ from rfl, ha] at hu
        simp only [attachLoop] at hu
        by_cases hx : hrefExt href = extXades
        · rw [if_pos hx] at hu
          obtain ⟨b, hb, w⟩ := ih u hu
          exact ⟨b, List.mem_cons_of_mem a hb, w⟩
        · rw [if_neg hx] at hu
          cases hg : get_text_from_attachment net (resolveAttachmentUrl uj url href) with
          | error e =>
            rw [hg] at hu
            simp at hu
            exact ⟨a, List.mem_cons_self a rest, href, ha, hx, hu⟩
          | ok t =>
            rw [hg] at hu
            cases hr : attachLoop uj net url rest with
            | mk r us =>
              rw [hr] at hu
              cases r with
              | error e =>
                simp at hu
                rcases hu with hu | hu
                · exact ⟨a, List.mem_cons_self a rest, href, ha, hx, hu⟩
                · obtain ⟨b, hb, w⟩ := ih u (by rw [hr]; exact hu)
                  exact ⟨b, List.mem_cons_of_mem a hb, w⟩
              | ok ts =>
                simp at hu
                rcases hu with hu | hu
                · exact ⟨a, List.mem_cons_self a rest, href, ha, hx, hu⟩
                · obtain ⟨b, hb, w⟩ := ih u (by rw [hr]; exact hu)
                  exact ⟨b, List.mem_cons_of_mem a hb, w⟩
  · intro uj net url href b rest h
    simp only [attachLoop]
    rw [if_pos h]

/-- C6 witness: the amended theorem at the concrete unknown-extension
scenario — the single issued request traces back to the non-xades
`file.docx` link — together with the skip of a concrete xades link. -/
theorem c6_witness :
    (∃ a ∈ [(⟨some hrefDocx, true⟩ : Anchor)], ∃ h, a.href = some h ∧
        hrefExt h ≠ extXades ∧ hrefDocx = resolveAttachmentUrl ujId urlD h) ∧
    attachLoop ujId netNone urlD [⟨some hrefXades, true⟩] =
      attachLoop ujId netNone urlD [] :=
  ⟨c6_only_xades_dropped.1 ujId netDocx urlD [⟨some hrefDocx, true⟩] hrefDocx
      (by decide),
   c6_only_xades_dropped.2 ujId netNone urlD hrefXades true [] (by decide)⟩

/-- C10, counterexample: the corpus is not one record per ListingEntry —
the `results` dict of `scrape_text_from_urls` (line 204) is keyed by URL,
so two entries carrying the same detail URL collapse into a single
record: scraping the duplicate list `[urlD, urlD]` yields one record, not
two. -/
theorem c10_counterexample :
    scrape_text_from_urls ujId netU [urlD, urlD] = Except.ok [(urlD, xText)] ∧
    ([(urlD, xText)] : List (PyStr × PyStr)).length ≠ 2 := by
  refine ⟨rfl, by decide⟩

/-- C10, amended: the emitted corpus holds one record per distinct detail
URL, in first-occurrence order of the scanner's output (duplicate URLs
collapse into the single record of their first position); each record
carries that URL's scraped text. -/
theorem c10_one_record_per_distinct_url (uj : UrlJoin) (net : Net)
    (urls : List PyStr) (f : PyStr → PyStr)
    (H : ∀ u ∈ urls, scrape_text_from_url uj net u = Except.ok (f u)) :
    scrape_text_from_urls uj net urls =
      Except.ok ((firstOcc [] urls).map fun u => (u, f u)) := by
  unfold scrape_text_from_urls
  have := urlsLoop_map uj net f urls [] H
  simpa using this

/-- C10 witness: the amended characterization at the duplicate-URL
scenario, where the deduplicated key order is the single `urlD`. -/
theorem c10_witness :
    scrape_text_from_urls ujId netU [urlD, urlD] =
      Except.ok ((firstOcc [] [urlD, urlD]).map fun u => (u, xText)) :=
  c10_one_record_per_distinct_url ujId netU [urlD, urlD] (fun _ => xText)
    (by
      intro u hu
      rcases List.mem_cons.mp hu with h | h
      · subst h; rfl
      · rcases List.mem_cons.mp h with h2 | h2
        · subst h2; rfl
        · cases h2)
